import Mathlib

/-!
Verification of the B-Roll Index analysis pipeline (analyze.js, lib/classify.js,
lib/frames.js, lib/project.js, server routes).

Modelling conventions:
* JavaScript numbers are modelled as exact rationals (ℚ); float rounding and NaN
  are outside the model.
* The zero-padded identifier strings `vid_NNN` / `clip_NNNN` are modelled by
  their numeric suffix N : ℕ.  The source's `parseInt(k.replace("vid_", ""), 10)`
  is the inverse of rendering on every id the system generates, and the NaN
  filter drops nothing for such ids, so `generateVideoId` / `generateClipId`
  become: max of the existing numeric ids plus one (or 1 when there are none).
* A JS object used as a map is modelled as an association list in insertion
  order; property assignment is update-or-append.
* Network and file-system effects are modelled by explicit oracles: each remote
  call's outcome is a value of an environment structure, and the file system is
  the list of existing paths.
-/

/-- A JS value that the provider may return for a list-typed tag field:
an array of strings, a bare string, or absent/invalid (modelled as `missing`). -/
inductive JSVal where
  | arr (items : List String)
  | str (s : String)
  | missing
deriving DecidableEq

/-- JS truthiness for the values of `JSVal`: arrays are always truthy,
a string is truthy iff nonempty, absent values are falsy. -/
def jsTruthy : JSVal → Bool
  | .arr _ => true
  | .str s => !(s == "")
  | .missing => false

/-- JS `a || b` on `JSVal` (used for the legacy `subjectDescriptors || beans`). -/
def jsOr (a b : JSVal) : JSVal := if jsTruthy a then a else b

/-- From analyze.js `toArray`: an array is returned as is, a truthy string is
wrapped in a singleton, anything else becomes the empty array. -/
def toArray : JSVal → List String
  | .arr l => l
  | .str s => if s == "" then [] else [s]
  | .missing => []

/-- The project taxonomy (§3 of the spec; taxonomy.json).
`minimumBrollScore` is `none` when the JSON field is null/undefined. -/
structure Taxonomy where
  shotTypes : List String
  equipment : List String
  products : List String
  techniques : List String
  subjectDescriptors : List String
  minimumBrollScore : Option ℚ
  promptContext : Option String
deriving DecidableEq

/-- A provider-reported segment (transient).  `startSec`/`endSec` are the
values of `parseTimestamp(seg.startTime)` / `parseTimestamp(seg.endTime)`;
the MM:SS codec itself is not under any claim. -/
structure Segment where
  startSec : ℚ
  endSec : ℚ
  shotType : String
  brollScore : ℚ
  equipment : JSVal
  products : JSVal
  technique : JSVal
  subjectDescriptors : JSVal
  beans : JSVal
  other : JSVal
  description : Option String
  presenterVisible : Option Bool
deriving DecidableEq

/-- analyze.js line 206: `segments.filter((s) => s.brollScore >= minScore)`. -/
def filterSegments (segments : List Segment) (minScore : ℚ) : List Segment :=
  segments.filter (fun s => decide (minScore ≤ s.brollScore))

/-- analyze.js line 205: `const minScore = taxonomy.minimumBrollScore || 0.5` —
JS `||` replaces every falsy value (0, null, undefined) by the default 0.5. -/
def effectiveMinScore (t : Taxonomy) : ℚ :=
  match t.minimumBrollScore with
  | some x => if x = 0 then 1/2 else x
  | none => 1/2

/-- The window returned by `tidyClipWindow` in lib/frames.js. -/
structure ClipWindow where
  start : ℚ
  duration : ℚ
deriving DecidableEq

/-- frames.js line 10: `Math.max(endSeconds - startSeconds, 0.2)`. -/
def rawDuration (s e : ℚ) : ℚ := max (e - s) (1/5)

/-- frames.js line 11: `Math.min(0.18, rawDuration * 0.24)`. -/
def startInset (s e : ℚ) : ℚ := min (9/50) (rawDuration s e * (6/25))

/-- frames.js line 12: `Math.min(0.08, rawDuration * 0.18)`. -/
def endInset (s e : ℚ) : ℚ := min (2/25) (rawDuration s e * (9/50))

/-- Length of the inset-tidied window `[start + startInset, end - endInset]`
(the quantity the guard on frames.js line 18 compares against 0.38). -/
def tidiedLen (s e : ℚ) : ℚ := (e - endInset s e) - (s + startInset s e)

/-- frames.js lines 19-21: the fixed window centered on the segment midpoint,
`start = max(0, center - 0.22)`, `end = center + 0.22`, with the final
`duration = Math.max(0.25, end - start)` of line 24 applied. -/
def fallbackWindow (s e : ℚ) : ClipWindow :=
  let center := (s + e) / 2
  let st := max 0 (center - 11/50)
  let en := center + 11/50
  ⟨st, max (1/4) (en - st)⟩

/-- frames.js lines 9-25, `tidyClipWindow`: tidied start/end from the insets;
if the tidied window is shorter than 0.38 the centered fallback is used;
the returned duration is floored at 0.25. -/
def tidyClipWindow (s e : ℚ) : ClipWindow :=
  if tidiedLen s e < 19/50 then fallbackWindow s e
  else ⟨s + startInset s e, max (1/4) (tidiedLen s e)⟩

/-- Taxonomy and segment used to exhibit the falsy-threshold behaviour. -/
def c10Taxonomy : Taxonomy :=
  ⟨["wide"], ["grinder"], [], [], [], some 0, none⟩

def c10Segment : Segment :=
  { startSec := 10, endSec := 13, shotType := "close-up", brollScore := 3/10,
    equipment := .missing, products := .missing, technique := .missing,
    subjectDescriptors := .missing, beans := .missing, other := .missing,
    description := none, presenterVisible := none }

/-- JS `s.toLowerCase()`: lowercase every character.  Extensionally the same
map as `String.toLower`, but written by structural recursion over the
character list so that proofs can evaluate it. -/
def lowerStr (s : String) : String := ⟨s.data.map Char.toLower⟩

/-- Loop body of analyze.js `mergeTerms` (lines 270-278): `ex` is the mutable
`existing` array, `seen` the `Set` of lowercased entries; each truthy term
whose lowercasing is unseen is pushed and its lowercasing recorded. -/
def mergeTermsGo : List String → List String → List String → List String
  | ex, _, [] => ex
  | ex, seen, t :: ts =>
    if t ≠ "" ∧ lowerStr t ∉ seen then
      mergeTermsGo (ex ++ [t]) (seen ++ [lowerStr t]) ts
    else
      mergeTermsGo ex seen ts

/-- analyze.js `mergeTerms(existing, discovered)`: the set starts as the
lowercasings of the existing entries (`new Set(existing.map(t => t.toLowerCase()))`). -/
def mergeTerms (ex disc : List String) : List String :=
  mergeTermsGo ex (ex.map lowerStr) disc

/-- JS `String(x).padStart(n, "0")` for the numbers rendered by the pipeline. -/
def padStartZero (n : ℕ) (s : String) : String :=
  ⟨List.replicate (n - s.length) '0' ++ s.data⟩

/-- analyze.js `formatTime` (and the identical `formatDuration`):
`Math.floor(seconds / 60)` and `Math.floor(seconds % 60)` (JS `%` agrees with
`q - 60 * floor(q / 60)` on the nonnegative values that occur), zero-padded. -/
def formatTime (seconds : ℚ) : String :=
  let m := Rat.floor (seconds / 60)
  let s := Rat.floor (seconds - 60 * (Rat.floor (seconds / 60) : ℚ))
  toString m ++ ":" ++ padStartZero 2 (toString s)

/-- The `tags` sub-object of a persisted clip (analyze.js lines 237-244). -/
structure Tags where
  shotType : String
  equipment : List String
  technique : List String
  subjectDescriptors : List String
  products : List String
  other : List String
deriving DecidableEq

/-- A persisted clip (analyze.js lines 229-252).  `id` is the numeric suffix
of the rendered `clip_NNNN`; `videoId` the numeric suffix of `vid_NNN`. -/
structure Clip where
  id : ℕ
  videoId : ℕ
  startTime : String
  endTime : String
  startSeconds : ℚ
  endSeconds : ℚ
  thumbnail : Option String
  tags : Tags
  description : String
  brollScore : ℚ
  presenterVisible : Bool
  userVerified : Bool
  userEdited : Bool
  userNotes : String
  excluded : Bool
deriving DecidableEq

/-- A video entry of the index (analyze.js lines 257-263). -/
structure VideoMeta where
  filename : String
  title : String
  duration : String
  dateAnalyzed : String
  sourcePath : String
deriving DecidableEq

/-- The externally supplied metadata of one video: `path.basename` title,
ffprobe duration display, today's date, resolved project path.  These are
environment inputs of the run, not computed by the merger. -/
structure VideoAux where
  title : String
  duration : String
  dateAnalyzed : String
  sourcePath : String
deriving DecidableEq

/-- The video entry written at analyze.js line 257: its `filename` field is
the processed filename. -/
def mkMeta (filename : String) (a : VideoAux) : VideoMeta :=
  ⟨filename, a.title, a.duration, a.dateAnalyzed, a.sourcePath⟩

/-- The persisted index (lib/project.js `loadIndex`): videos is a JS object
(association list keyed by the numeric id suffix, insertion order), clips an
ordered array. -/
structure Index where
  version : String
  lastUpdated : String
  videos : List (ℕ × VideoMeta)
  clips : List Clip
deriving DecidableEq

/-- analyze.js `generateVideoId` (lines 56-62): max numeric suffix of the
existing keys plus one, or 1 when there are none (`Math.max(...nums) + 1`). -/
def generateVideoId (videos : List (ℕ × VideoMeta)) : ℕ :=
  let nums := videos.map Prod.fst
  if nums.isEmpty then 1 else nums.foldr max 0 + 1

/-- analyze.js `generateClipId` (lines 70-76): max numeric suffix of the
current clip list plus one, or 1 when there are none. -/
def generateClipId (clips : List Clip) : ℕ :=
  let nums := clips.map (fun c => c.id)
  if nums.isEmpty then 1 else nums.foldr max 0 + 1

/-- Preview filename `clip_NNNN.gif` (analyze.js lines 216-217). -/
def gifName (n : ℕ) : String := "clip_" ++ padStartZero 4 (toString n) ++ ".gif"

/-- One clip record as pushed at analyze.js lines 229-252.  `gifOk` tells
whether `extractClipGif` succeeded; on failure the thumbnail stays null. -/
def mkClip (vid counter : ℕ) (s : Segment) (gifOk : Bool) : Clip :=
  { id := counter, videoId := vid,
    startTime := formatTime s.startSec, endTime := formatTime s.endSec,
    startSeconds := s.startSec, endSeconds := s.endSec,
    thumbnail := if gifOk then some (gifName counter) else none,
    tags := { shotType := s.shotType, equipment := toArray s.equipment,
              technique := toArray s.technique,
              subjectDescriptors := toArray (jsOr s.subjectDescriptors s.beans),
              products := toArray s.products, other := toArray s.other },
    description := s.description.getD "",
    brollScore := s.brollScore,
    presenterVisible := s.presenterVisible.getD false,
    userVerified := false, userEdited := false, userNotes := "", excluded := false }

/-- The clip-building loop of analyze.js lines 212-253: each accepted segment
gets the next value of the run's `clipIdCounter`. -/
def buildClips (vid : ℕ) : ℕ → List (Segment × Bool) → List Clip
  | _, [] => []
  | counter, (s, ok) :: rest => mkClip vid counter s ok :: buildClips vid (counter + 1) rest

/-- analyze.js lines 172-174: ids of the existing video entries carrying the
re-analyzed filename. -/
def staleIds (idx : Index) (filename : String) : List ℕ :=
  (idx.videos.filter (fun kv => decide (kv.2.filename = filename))).map Prod.fst

/-- analyze.js lines 178-181: the preview files unlinked during stale-clip
removal (clips of the stale videos whose thumbnail is truthy). -/
def unlinkedThumbs (idx : Index) (filename : String) : List String :=
  (idx.clips.filter (fun c => decide (c.videoId ∈ staleIds idx filename))).filterMap
    (fun c => match c.thumbnail with
      | some t => if t = "" then none else some t
      | none => none)

/-- Merge state after analyze.js line 182: stale clips filtered out. -/
def step1 (idx : Index) (filename : String) : Index :=
  { idx with clips := idx.clips.filter (fun c => decide (c.videoId ∉ staleIds idx filename)) }

/-- Merge state after analyze.js line 183: stale video keys deleted. -/
def step2 (idx : Index) (filename : String) : Index :=
  { step1 idx filename with
    videos := idx.videos.filter (fun kv => decide (kv.1 ∉ staleIds idx filename)) }

/-- JS object property assignment `videos[k] = m` on the association-list
model: overwrite in place if the key exists, else append. -/
def objSet (videos : List (ℕ × VideoMeta)) (k : ℕ) (m : VideoMeta) : List (ℕ × VideoMeta) :=
  if videos.any (fun kv => decide (kv.1 = k)) then
    videos.map (fun kv => if kv.1 = k then (k, m) else kv)
  else
    videos ++ [(k, m)]

/-- Merge state after analyze.js line 257: the new video entry stored under
the id allocated (line 187) from the post-removal videos map. -/
def step3 (idx : Index) (filename : String) (a : VideoAux) : Index :=
  { step2 idx filename with
    videos := objSet (step2 idx filename).videos
      (generateVideoId (step2 idx filename).videos) (mkMeta filename a) }

/-- Merge state after analyze.js line 265: the new clips appended. -/
def step4 (idx : Index) (filename : String) (a : VideoAux)
    (payload : List (Segment × Bool)) (counter : ℕ) : Index :=
  { step3 idx filename a with
    clips := (step3 idx filename a).clips ++
      buildClips (generateVideoId (step2 idx filename).videos) counter payload }

/-- Result of one analysis run on one file: the merged index, the preview
files unlinked by stale removal, and (for specification) the video id
allocated and the clips created. -/
structure RunResult where
  index : Index
  unlinked : List String
  newVideoId : ℕ
  newClips : List Clip
deriving DecidableEq

/-- One full merge for one source file (analyze.js main loop, `--file` mode):
the clip counter is seeded from the pre-run clip list (line 160), then stale
entries are removed and the new video and clips are committed (lines 171-265). -/
def analyzeRun (idx : Index) (filename : String) (payload : List (Segment × Bool))
    (a : VideoAux) : RunResult :=
  let counter := generateClipId idx.clips
  let vid := generateVideoId (step2 idx filename).videos
  ⟨step4 idx filename a payload counter, unlinkedThumbs idx filename, vid,
    buildClips vid counter payload⟩

/-- Two successive runs on the same filename. -/
def rerun (idx : Index) (filename : String) (p1 p2 : List (Segment × Bool))
    (a1 a2 : VideoAux) : RunResult :=
  analyzeRun (analyzeRun idx filename p1 a1).index filename p2 a2

/-- Referential integrity of the index (spec §3): every clip's videoId is a
key of the videos map. -/
def Invariant (idx : Index) : Prop :=
  ∀ c ∈ idx.clips, c.videoId ∈ idx.videos.map Prod.fst

/-- The clip-deletion route (server, `DELETE /api/projects/:slug/clips/:id`):
`index.clips = index.clips.filter((c) => c.id !== id)`. -/
def deleteClip (clips : List Clip) (n : ℕ) : List Clip :=
  clips.filter (fun c => decide (c.id ≠ n))

/-- A generic provider segment used for concrete witnesses. -/
def demoSegment : Segment :=
  { startSec := 10, endSec := 13, shotType := "close-up", brollScore := 9/10,
    equipment := .arr ["kettle"], products := .missing, technique := .missing,
    subjectDescriptors := .missing, beans := .missing, other := .missing,
    description := some "pouring water", presenterVisible := some false }

/-- Clip ids 1, 2, 3 as issued by a run on an empty catalog. -/
def c4clips : List Clip :=
  buildClips 1 1 [(demoSegment, true), (demoSegment, true), (demoSegment, true)]

def c5meta : VideoMeta := ⟨"a.mp4", "a", "1:00", "2026-01-01", "/p"⟩

def c5aux : VideoAux := ⟨"a", "1:00", "2026-01-01", "/p"⟩

def c5idx : Index := ⟨"2.0", "", [(1, c5meta)], [mkClip 1 1 demoSegment true]⟩

/-- JS `s.slice(0, n)` on strings (used for the 300-character error excerpts). -/
def strSlice (s : String) (n : ℕ) : String := ⟨s.data.take n⟩

/-- The handle returned by a successful upload (classify.js line 225):
`fileName` is `fileInfo.file?.name` and may be absent. -/
structure UploadHandle where
  fileUri : String
  mimeType : String
  fileName : Option String
deriving DecidableEq

/-- Outcome of the session-initiation request (classify.js lines 175-184):
`uploadUrl` is the `x-goog-upload-url` response header, possibly absent. -/
structure InitResponse where
  uploadUrl : Option String
  statusCode : ℕ
  body : String
deriving DecidableEq

/-- The provider error object possibly embedded in the upload response
(classify.js lines 210-214); `code`/`message` rendered, defaulted when falsy. -/
structure ApiError where
  code : Option String
  message : Option String
deriving DecidableEq

/-- The parsed JSON of the byte-upload response (classify.js lines 202-219);
`raw` is the response text used in the no-file_uri message. -/
structure FileInfo where
  error : Option ApiError
  fileUri : Option String
  fileName : Option String
  raw : String
deriving DecidableEq

/-- Outcome of the byte-upload request: `parsed` is `none` when
`JSON.parse(uploadRes.body)` throws (classify.js lines 203-207). -/
structure UploadResponse where
  parsed : Option FileInfo
  statusCode : ℕ
  body : String
deriving DecidableEq

/-- One poll response of the file-status endpoint (classify.js lines 249-256):
the file's `state` and the rendered `JSON.stringify(info.error || ...)`. -/
structure PollInfo where
  state : String
  errorJson : String
deriving DecidableEq

/-- All external outcomes of one upload attempt.  A `.error` models a network
rejection of the corresponding request (or, for `poll`, a JSON.parse failure
of the poll body). -/
structure AttemptEnv where
  initStep : Except String InitResponse
  uploadStep : Except String UploadResponse
  poll : ℕ → Except String PollInfo

/-- classify.js `waitForFileActive` (lines 243-264): poll until ACTIVE, fail
on FAILED, time out after maxWait/pollInterval = 120000/3000 = 40 polls.
Time is modelled as the poll count times the fixed interval. -/
def waitForFilePoll (poll : ℕ → Except String PollInfo) : ℕ → ℕ → Except String Unit
  | 0, _ => .error "Timed out waiting for video file to be processed"
  | fuel + 1, i =>
    match poll i with
    | .error m => .error m
    | .ok info =>
      if info.state = "ACTIVE" then .ok ()
      else if info.state = "FAILED" then
        .error ("File processing failed: " ++ info.errorJson)
      else waitForFilePoll poll fuel (i + 1)

def waitForFileActive (poll : ℕ → Except String PollInfo) : Except String Unit :=
  waitForFilePoll poll 40 0

/-- The body of one upload attempt (classify.js lines 172-225): initiate the
resumable session, check the session URL, push the bytes, parse the response,
check for a provider error object, extract the file uri, poll until ACTIVE.
`mt` is `getMimeType(videoPath)`, computed before the loop. -/
def attemptUpload (mt : String) (env : AttemptEnv) : Except String UploadHandle :=
  match env.initStep with
  | .error m => .error m
  | .ok initRes =>
    match initRes.uploadUrl with
    | none => .error ("Failed to initiate upload (HTTP " ++ toString initRes.statusCode
        ++ "): " ++ strSlice initRes.body 300)
    | some _ =>
      match env.uploadStep with
      | .error m => .error m
      | .ok uploadRes =>
        match uploadRes.parsed with
        | none => .error ("Invalid response from upload (HTTP "
            ++ toString uploadRes.statusCode ++ "): " ++ strSlice uploadRes.body 300)
        | some fileInfo =>
          match fileInfo.error with
          | some apiErr => .error ("Gemini API error (" ++ apiErr.code.getD "unknown"
              ++ "): " ++ apiErr.message.getD "unknown error")
          | none =>
            match fileInfo.fileUri with
            | none => .error ("No file_uri in upload response: " ++ strSlice fileInfo.raw 300)
            | some uri =>
              match waitForFileActive env.poll with
              | .error m => .error m
              | .ok _ => .ok { fileUri := uri, mimeType := mt, fileName := fileInfo.fileName }

def MAX_RETRIES : ℕ := 3

/-- The retry loop of classify.js `uploadVideo` (lines 171-237): rerun the
whole attempt body; on failure with attempts left sleep `5000 * attempt` and
retry, on the last failure throw naming the last cause.  Returns the result
together with the list of sleeps performed.  `rem` counts the attempts left
(`MAX_RETRIES - attempt + 1`); the loop always returns or throws before the
fuel runs out. -/
def uploadRetry (envs : ℕ → AttemptEnv) (mt : String) : ℕ → ℕ → Except String UploadHandle × List ℕ
  | 0, _ => (.error "", [])
  | rem + 1, attempt =>
    match attemptUpload mt (envs attempt) with
    | .ok h => (.ok h, [])
    | .error e =>
      if rem = 0 then
        (.error ("Upload failed after " ++ toString MAX_RETRIES ++ " attempts: " ++ e), [])
      else
        let r := uploadRetry envs mt rem (attempt + 1)
        (r.1, 5000 * attempt :: r.2)

/-- classify.js `uploadVideo`: up to `MAX_RETRIES` attempts starting at 1. -/
def uploadVideo (envs : ℕ → AttemptEnv) (mt : String) : Except String UploadHandle × List ℕ :=
  uploadRetry envs mt MAX_RETRIES 1

/-- An attempt environment whose very first request fails on the network. -/
def c7env : AttemptEnv :=
  { initStep := .error "boom", uploadStep := .error "unused",
    poll := fun _ => .error "unused" }

/-- The `clip.seg` sub-object read by `verifyClips` (display times and the
stored description). -/
structure VSeg where
  startTime : String
  endTime : String
  description : String
deriving DecidableEq

/-- A clip record handed to classify.js `verifyClips`: thumbnail path and
representative time, the segment data, and the verification flags (absent
before the first verification). -/
structure VClip where
  clipId : String
  thumbPath : String
  thumbTime : ℚ
  seg : VSeg
  verified : Option Bool
  mismatch : Option Bool
deriving DecidableEq

/-- One `{index, matches}` verdict of the batch check (classify.js 396-407);
`isMatch` models the JS `matches` field (a Lean keyword). -/
structure Verdict where
  index : ℤ
  isMatch : Bool
deriving DecidableEq

/-- Outcome of the batch-check request: network/HTTP rejection, missing
response text, unparseable JSON, or a parsed verdict array. -/
inductive BatchOut where
  | reqFail (msg : String)
  | noText
  | badJson
  | verdicts (vs : List Verdict)
deriving DecidableEq

/-- Outcome of one re-pick request (classify.js 449-465): network/HTTP
rejection, missing response text, unparseable JSON, or a parsed
`{ bestImage }` object (`none` when the key is absent). -/
inductive PickOut where
  | reqFail (msg : String)
  | noText
  | badJson
  | choice (bestImage : Option ℤ)
deriving DecidableEq

/-- External outcomes for one mismatched clip's re-pick iteration:
which candidate extractions succeed, and the pick request's outcome. -/
structure RepickEnv where
  extractOk : ℤ → Bool
  pick : PickOut

/-- External outcomes of one `verifyClips` call: the initial file system
(existing paths), the batch outcome, and the per-iteration re-pick outcomes. -/
structure VerifyEnv where
  fs0 : List String
  batch : BatchOut
  repick : ℕ → RepickEnv

/-- Create a path in the modelled file system (sets are path lists). -/
def insertFS (fs : List String) (p : String) : List String :=
  if p ∈ fs then fs else p :: fs

/-- `fs.unlinkSync` over a list of paths (failures are swallowed). -/
def removeFS (fs : List String) (ps : List String) : List String :=
  fs.filter (fun q => decide (q ∉ ps))

/-- JS `String.prototype.replace` with a string pattern: replace the first
occurrence only (recursion over the haystack characters). -/
def replaceFirstAux : List Char → List Char → List Char → List Char
  | [], _, _ => []
  | c :: rest, pat, repl =>
    if pat.isPrefixOf (c :: rest) then repl ++ (c :: rest).drop pat.length
    else c :: replaceFirstAux rest pat repl

def replaceFirst (s pat repl : String) : String :=
  if pat = "" then repl ++ s
  else ⟨replaceFirstAux s.data pat.data repl.data⟩

/-- classify.js line 418: the fixed candidate offsets. -/
def repickOffsets : List ℤ := [-2, -1, 0, 1, 2, 3]

/-- classify.js line 425: `clip.thumbPath.replace(".jpg", "_candidate_OFF.jpg")`. -/
def candPath (c : VClip) (off : ℤ) : String :=
  replaceFirst c.thumbPath ".jpg" ("_candidate_" ++ toString off ++ ".jpg")

/-- classify.js lines 422-436: candidate frames at the fixed offsets around
`thumbTime`, skipping negative timestamps and failed extractions; each entry
is (offset, path, time) as recorded in `candidateTimes`.  The JS guard is
`candidateTime < 0` with `candidateTime = thumbTime + offset`; since the
denominator is positive this is `num + offset * den < 0`, written on the
integer components so that proofs can evaluate it. -/
def candidateList (ext : ℤ → Bool) (c : VClip) : List (ℤ × String × ℚ) :=
  repickOffsets.filterMap (fun (off : ℤ) =>
    if c.thumbTime.num + off * (c.thumbTime.den : ℤ) < 0 then none
    else if ext off then some (off, candPath c off, c.thumbTime + (off : ℚ))
    else none)

/-- The flag mutation `clip.verified = v; clip.mismatch = m`. -/
def setFlags (c : VClip) (v m : Bool) : VClip :=
  { c with verified := some v, mismatch := some m }

/-- Placeholder for out-of-range positional reads; every position produced by
`clipRefs`/`applyVerdicts` is in range, so it is never read in reachable runs. -/
def dummyVClip : VClip := ⟨"", "", 0, ⟨"", "", ""⟩, none, none⟩

/-- classify.js line 457: `(pick.bestImage || 1) - 1` — a falsy bestImage
(absent or 0) defaults to 1 before the 1-based index is shifted. -/
def pickIdx (b : Option ℤ) : ℤ :=
  (match b with
    | some n => if n = 0 then 1 else n
    | none => 1) - 1

/-- The file system after the candidate extractions of one re-pick iteration
(classify.js lines 422-436): each successful extraction creates its file. -/
def candFS (env : RepickEnv) (st : List VClip × List String) (p : ℕ) : List String :=
  (candidateList env.extractOk (st.1.getD p dummyVClip)).foldl
    (fun acc c => insertFS acc c.2.1) st.2

/-- The candidate temp paths recorded in `candidateTimes` for one iteration. -/
def candPaths (env : RepickEnv) (st : List VClip × List String) (p : ℕ) : List String :=
  (candidateList env.extractOk (st.1.getD p dummyVClip)).map (fun c => c.2.1)

/-- Re-pick processing of one mismatched clip (classify.js lines 415-477),
acting on the clip list (by position `p`) and the file system.  The candidate
temp files are created; with no candidates the clip is skipped; a pick-request
failure or a JSON.parse failure throws to the per-clip catch, skipping the
cleanup loop (the files remain); otherwise a valid in-range choice copies the
winner over the thumbnail and sets the flags, and the cleanup loop deletes all
candidate files regardless of the choice's validity. -/
def processMismatch (env : RepickEnv) (st : List VClip × List String) (p : ℕ) :
    List VClip × List String :=
  if (candidateList env.extractOk (st.1.getD p dummyVClip)).isEmpty then
    (st.1, candFS env st p)
  else
    match env.pick with
    | .reqFail _ => (st.1, candFS env st p)
    | .noText => (st.1, removeFS (candFS env st p) (candPaths env st p))
    | .badJson => (st.1, candFS env st p)
    | .choice b =>
      if 0 ≤ pickIdx b ∧
          (pickIdx b).toNat < (candidateList env.extractOk (st.1.getD p dummyVClip)).length then
        (st.1.set p (setFlags (st.1.getD p dummyVClip) true false),
          removeFS (insertFS (candFS env st p) (st.1.getD p dummyVClip).thumbPath)
            (candPaths env st p))
      else (st.1, removeFS (candFS env st p) (candPaths env st p))

/-- The re-pick loop over the mismatched positions, threading the pacing
counter used to index the per-iteration environments. -/
def repickLoop (env : VerifyEnv) : List ℕ → ℕ → List VClip × List String → List VClip × List String
  | [], _, st => st
  | p :: rest, k, st => repickLoop env rest (k + 1) (processMismatch (env.repick k) st p)

/-- classify.js lines 352-361: positions of the clips with a truthy, readable
thumbnail path (the `clipRefs` array, by position into the input list). -/
def clipRefs (clips : List VClip) (fs : List String) : List ℕ :=
  (List.range clips.length).filter (fun i =>
    match clips[i]? with
    | some c => decide (c.thumbPath ≠ "" ∧ c.thumbPath ∈ fs)
    | none => false)

/-- The clip position addressed by one verdict: `clipRefs[result.index - 1]`
(only read when the bounds check passed). -/
def verdictPos (refs : List ℕ) (v : Verdict) : ℕ := refs.getD (v.index - 1).toNat 0

/-- classify.js lines 396-407: apply the verdicts in order; a verdict whose
1-based index is out of `[1, clipRefs.length]` is skipped (`idx < 0 ||
idx >= clipRefs.length`); `matches` sets verified/mismatch, and mismatched
clips' positions are collected in verdict order. -/
def applyVerdicts (refs : List ℕ) : List Verdict → List VClip → List VClip × List ℕ
  | [], clips => (clips, [])
  | v :: vs, clips =>
    if v.index - 1 < 0 ∨ (refs.length : ℤ) ≤ v.index - 1 then
      applyVerdicts refs vs clips
    else
      ((applyVerdicts refs vs (clips.set (verdictPos refs v)
          (setFlags (clips.getD (verdictPos refs v) dummyVClip) v.isMatch (!v.isMatch)))).1,
        if v.isMatch then
          (applyVerdicts refs vs (clips.set (verdictPos refs v)
            (setFlags (clips.getD (verdictPos refs v) dummyVClip) v.isMatch (!v.isMatch)))).2
        else
          verdictPos refs v :: (applyVerdicts refs vs (clips.set (verdictPos refs v)
            (setFlags (clips.getD (verdictPos refs v) dummyVClip) v.isMatch (!v.isMatch)))).2)

/-- classify.js `verifyClips`: batch check, then the re-pick pass when there
are mismatches and a frame-extraction capability was supplied.  Returns the
updated clips and the resulting file system. -/
def verifyClips (env : VerifyEnv) (hasExtract : Bool) (clips : List VClip) :
    List VClip × List String :=
  if (clipRefs clips env.fs0).isEmpty then (clips, env.fs0)
  else
    match env.batch with
    | .reqFail _ => (clips, env.fs0)
    | .noText => (clips, env.fs0)
    | .badJson => (clips, env.fs0)
    | .verdicts vs =>
      if ¬ (applyVerdicts (clipRefs clips env.fs0) vs clips).2.isEmpty ∧ hasExtract then
        repickLoop env (applyVerdicts (clipRefs clips env.fs0) vs clips).2 0
          ((applyVerdicts (clipRefs clips env.fs0) vs clips).1, env.fs0)
      else ((applyVerdicts (clipRefs clips env.fs0) vs clips).1, env.fs0)

/-- The stored descriptions of a clip list. -/
def descs (l : List VClip) : List String := l.map (fun c => c.seg.description)

/-- A mismatched clip for the re-pick scenarios. -/
def c9clip : VClip :=
  { clipId := "clip_0001", thumbPath := "t.jpg", thumbTime := 5,
    seg := ⟨"0:10", "0:13", "pouring coffee beans"⟩, verified := none, mismatch := none }

/-- Environment where the batch marks the clip mismatched and the re-pick
request fails on the network. -/
def c9envFail : VerifyEnv :=
  { fs0 := ["t.jpg"], batch := .verdicts [⟨1, false⟩],
    repick := fun _ => { extractOk := fun _ => true, pick := .reqFail "boom" } }

/-- A re-pick environment whose pick request returns a response with no text. -/
def c9envOk : RepickEnv := { extractOk := fun _ => true, pick := .noText }

-- ─── Theorems ────────────────────────────────────────────────────────────────

/-- Claim C1: for every list of segments and every minimum score, the segment
filter keeps exactly the segments whose brollScore is at least the minimum
score (inclusive comparison, order and multiplicity preserved). -/
theorem filterSegments_spec :
    ∀ (segments : List Segment) (m : ℚ),
      (filterSegments segments m).Sublist segments ∧
      ∀ s : Segment, s ∈ filterSegments segments m ↔ s ∈ segments ∧ m ≤ s.brollScore := by
  intro segs m
  refine ⟨List.filter_sublist _, ?_⟩
  intro s
  simp [filterSegments]

/-- Claim C2 (counterexample): at start 0, end 23/38 the inset-tidied length is
exactly 0.38, which is "at most 0.38", yet the code's strict `< 0.38` guard
takes the non-degenerate branch, not the centered fallback. -/
theorem tidyClipWindow_boundary_cex :
    (0:ℚ) ≤ 0 ∧ (0:ℚ) < 23/38 ∧
    tidiedLen 0 (23/38) = 19/50 ∧
    tidyClipWindow 0 (23/38) ≠ fallbackWindow 0 (23/38) := by
  have hlen : tidiedLen 0 (23/38) = 19/50 := by
    norm_num [tidiedLen, startInset, endInset, rawDuration]
  refine ⟨le_refl _, by norm_num, hlen, ?_⟩
  have h1 : tidyClipWindow 0 (23/38) = ClipWindow.mk (69/475) (19/50) := by
    simp only [tidyClipWindow]
    rw [if_neg (by rw [hlen]; norm_num)]
    norm_num [ClipWindow.mk.injEq, hlen, startInset, endInset, rawDuration]
  have h2 : fallbackWindow 0 (23/38) = ClipWindow.mk (157/1900) (11/25) := by
    norm_num [fallbackWindow, ClipWindow.mk.injEq]
  intro h
  rw [h1, h2] at h
  simp only [ClipWindow.mk.injEq] at h
  exact absurd h.1 (by norm_num)

/-- Claim C2 (amended): for 0 ≤ start < end the returned window has
nonnegative start and duration at least 0.25; when the guard does not fire
(tidied length not below 0.38) the window ends no later than `end`; and the
centered 0.44 fallback is used exactly when the tidied length is strictly
less than 0.38. -/
theorem tidyClipWindow_spec (s e : ℚ) (hs : 0 ≤ s) (_hlt : s < e) :
    0 ≤ (tidyClipWindow s e).start ∧
    (1/4 : ℚ) ≤ (tidyClipWindow s e).duration ∧
    (¬ tidiedLen s e < 19/50 →
      (tidyClipWindow s e).start + (tidyClipWindow s e).duration ≤ e) ∧
    (tidiedLen s e < 19/50 → tidyClipWindow s e = fallbackWindow s e) := by
  have hraw : (1/5 : ℚ) ≤ rawDuration s e := le_max_right _ _
  have hsi : 0 ≤ startInset s e := by
    have : (0:ℚ) ≤ rawDuration s e * (6/25) := by nlinarith
    exact le_min (by norm_num) this
  have hei : 0 ≤ endInset s e := by
    have : (0:ℚ) ≤ rawDuration s e * (9/50) := by nlinarith
    exact le_min (by norm_num) this
  by_cases h : tidiedLen s e < 19/50
  · refine ⟨?_, ?_, fun hc => absurd h hc, fun _ => by simp [tidyClipWindow, h]⟩
    · simp only [tidyClipWindow, if_pos h, fallbackWindow]
      exact le_max_left _ _
    · simp only [tidyClipWindow, if_pos h, fallbackWindow]
      exact le_max_left _ _
  · have hge : (19/50 : ℚ) ≤ tidiedLen s e := le_of_not_lt h
    have hmax : max (1/4 : ℚ) (tidiedLen s e) = tidiedLen s e :=
      max_eq_right (by linarith)
    refine ⟨?_, ?_, ?_, fun hc => absurd hc h⟩
    · simp only [tidyClipWindow, if_neg h]
      linarith
    · simp only [tidyClipWindow, if_neg h, hmax]
      linarith
    · intro _
      simp only [tidyClipWindow, if_neg h, hmax]
      unfold tidiedLen
      linarith

/-- Claim C2 (witness): the amended theorem applied at start 0, end 2. -/
theorem tidyClipWindow_spec_witness :
    (0:ℚ) ≤ 0 ∧ (0:ℚ) < 2 ∧
    (0 ≤ (tidyClipWindow 0 2).start ∧
     (1/4 : ℚ) ≤ (tidyClipWindow 0 2).duration ∧
     (¬ tidiedLen 0 2 < 19/50 →
       (tidyClipWindow 0 2).start + (tidyClipWindow 0 2).duration ≤ 2) ∧
     (tidiedLen 0 2 < 19/50 → tidyClipWindow 0 2 = fallbackWindow 0 2)) :=
  ⟨le_refl _, by norm_num, tidyClipWindow_spec 0 2 (le_refl _) (by norm_num)⟩

/-- Claim C10: a configured `minimumBrollScore` of 0 (or null/undefined) is
falsy, so the default 0.5 is substituted and a segment scoring 0.3 is rejected
even though 0.3 is at least 0. -/
theorem falsy_minScore_default :
    effectiveMinScore c10Taxonomy = 1/2 ∧
    effectiveMinScore { c10Taxonomy with minimumBrollScore := none } = 1/2 ∧
    (0:ℚ) ≤ c10Segment.brollScore ∧
    filterSegments [c10Segment] (effectiveMinScore c10Taxonomy) = [] := by
  have hmin : effectiveMinScore c10Taxonomy = 1/2 := by
    norm_num [effectiveMinScore, c10Taxonomy]
  refine ⟨hmin, by norm_num [effectiveMinScore], by norm_num [c10Segment], ?_⟩
  have hrej : ¬ (effectiveMinScore c10Taxonomy ≤ c10Segment.brollScore) := by
    rw [hmin]
    norm_num [c10Segment]
  simp [filterSegments, List.filter_cons, hrej]

-- ─── Taxonomy learner lemmas (C6) ───────────────────────────────────────────

theorem mergeTermsGo_cons (ex seen : List String) (t : String) (ts : List String) :
    mergeTermsGo ex seen (t :: ts) =
      if t ≠ "" ∧ lowerStr t ∉ seen then mergeTermsGo (ex ++ [t]) (seen ++ [lowerStr t]) ts
      else mergeTermsGo ex seen ts := rfl

theorem mergeTerms_cons (ex : List String) (t : String) (ts : List String) :
    mergeTerms ex (t :: ts) =
      if t ≠ "" ∧ lowerStr t ∉ ex.map lowerStr then mergeTerms (ex ++ [t]) ts
      else mergeTerms ex ts := by
  simp only [mergeTerms, mergeTermsGo_cons, List.map_append, List.map_cons, List.map_nil]

theorem mergeTerms_shape : ∀ (disc ex : List String), ∃ news : List String,
    mergeTerms ex disc = ex ++ news ∧
    news.Sublist disc ∧
    (∀ t ∈ news, t ≠ "" ∧ ∀ e ∈ ex, lowerStr e ≠ lowerStr t) ∧
    List.Pairwise (fun a b => lowerStr a ≠ lowerStr b) news ∧
    (∀ l1 t l2, disc = l1 ++ t :: l2 → t ≠ "" →
      (∀ e ∈ ex ++ l1, lowerStr e ≠ lowerStr t) → t ∈ news) := by
  intro disc
  induction disc with
  | nil =>
    intro ex
    refine ⟨[], by simp [mergeTerms, mergeTermsGo], List.Sublist.refl _, by simp, by simp, ?_⟩
    intro l1 t l2 habs
    exact absurd habs (by simp)
  | cons t ts ih =>
    intro ex
    rw [mergeTerms_cons]
    by_cases h : t ≠ "" ∧ lowerStr t ∉ ex.map lowerStr
    · rw [if_pos h]
      obtain ⟨news, heq, hsub, hnew, hpw, hcomp⟩ := ih (ex ++ [t])
      refine ⟨t :: news, ?_, hsub.cons₂ t, ?_, ?_, ?_⟩
      · rw [heq, List.append_assoc]
        rfl
      · intro u hu
        rcases List.mem_cons.mp hu with rfl | hu'
        · refine ⟨h.1, fun e he hlow => ?_⟩
          exact h.2 (List.mem_map.mpr ⟨e, he, hlow⟩)
        · exact ⟨(hnew u hu').1, fun e he => (hnew u hu').2 e (List.mem_append_left _ he)⟩
      · refine List.Pairwise.cons (fun u hu => ?_) hpw
        exact (hnew u hu).2 t (List.mem_append_right _ (List.mem_singleton.mpr rfl))
      · intro l1 u l2 hdisc hne hno
        cases l1 with
        | nil =>
          simp only [List.nil_append, List.cons.injEq] at hdisc
          exact hdisc.1 ▸ List.mem_cons_self _ _
        | cons a l1' =>
          simp only [List.cons_append, List.cons.injEq] at hdisc
          obtain ⟨rfl, hts⟩ := hdisc
          refine List.mem_cons_of_mem _ (hcomp l1' u l2 hts hne ?_)
          intro e he
          apply hno e
          rw [List.append_assoc] at he
          exact he
    · rw [if_neg h]
      obtain ⟨news, heq, hsub, hnew, hpw, hcomp⟩ := ih ex
      refine ⟨news, heq, hsub.cons t, hnew, hpw, ?_⟩
      intro l1 u l2 hdisc hne hno
      cases l1 with
      | nil =>
        simp only [List.nil_append, List.cons.injEq] at hdisc
        obtain ⟨rfl, rfl⟩ := hdisc
        rw [not_and_or, not_not, not_not] at h
        rcases h with h0 | hmem
        · exact absurd h0 hne
        · obtain ⟨e, he, hlow⟩ := List.mem_map.mp hmem
          exact absurd hlow (hno e (List.mem_append_left _ he))
      | cons a l1' =>
        simp only [List.cons_append, List.cons.injEq] at hdisc
        obtain ⟨rfl, hts⟩ := hdisc
        refine hcomp l1' u l2 hts hne ?_
        intro e he
        apply hno e
        rcases List.mem_append.mp he with h1 | h2
        · exact List.mem_append_left _ h1
        · exact List.mem_append_right _ (List.mem_cons_of_mem _ h2)

theorem mergeTerms_covered : ∀ (disc ex : List String),
    (∀ t ∈ disc, t = "" ∨ lowerStr t ∈ ex.map lowerStr) → mergeTerms ex disc = ex := by
  intro disc
  induction disc with
  | nil => intro ex _; rfl
  | cons t ts ih =>
    intro ex hcov
    rw [mergeTerms_cons, if_neg ?_]
    · exact ih ex (fun u hu => hcov u (List.mem_cons_of_mem _ hu))
    · rcases hcov t (List.mem_cons_self _ _) with h0 | hmem
      · exact fun hc => hc.1 h0
      · exact fun hc => hc.2 hmem

theorem lowerStr_mem_mergeTerms (ex disc : List String) (x : String)
    (hx : x ∈ ex.map lowerStr) :
    x ∈ (mergeTerms ex disc).map lowerStr := by
  obtain ⟨news, heq, _⟩ := mergeTerms_shape disc ex
  rw [heq, List.map_append]
  exact List.mem_append_left _ hx

theorem mergeTerms_covers : ∀ (disc ex : List String) (t : String),
    t ∈ disc → t ≠ "" → lowerStr t ∈ (mergeTerms ex disc).map lowerStr := by
  intro disc
  induction disc with
  | nil => intro ex t ht; exact absurd ht (by simp)
  | cons u ts ih =>
    intro ex t ht hne
    rw [mergeTerms_cons]
    by_cases h : u ≠ "" ∧ lowerStr u ∉ ex.map lowerStr
    · rw [if_pos h]
      rcases List.mem_cons.mp ht with rfl | ht'
      · exact lowerStr_mem_mergeTerms _ _ _ (by simp)
      · exact ih (ex ++ [u]) t ht' hne
    · rw [if_neg h]
      rcases List.mem_cons.mp ht with rfl | ht'
      · have hmem : lowerStr t ∈ ex.map lowerStr := by
          by_contra hnot
          exact h ⟨hne, hnot⟩
        exact lowerStr_mem_mergeTerms _ _ _ hmem
      · exact ih ex t ht' hne

/-- Claim C6: taxonomy term learning appends a discovered term only when no
entry is already present under case-insensitive comparison (and only nonempty
terms), keeps the appended terms in discovery order as a sublist with pairwise
distinct lowercasings, retains the first occurrence of each new term, and
re-learning the same terms in any casings changes nothing. -/
theorem mergeTerms_spec :
    (∀ (disc ex : List String), ∃ news : List String,
        mergeTerms ex disc = ex ++ news ∧
        news.Sublist disc ∧
        (∀ t ∈ news, t ≠ "" ∧ ∀ e ∈ ex, lowerStr e ≠ lowerStr t) ∧
        List.Pairwise (fun a b => lowerStr a ≠ lowerStr b) news ∧
        (∀ l1 t l2, disc = l1 ++ t :: l2 → t ≠ "" →
          (∀ e ∈ ex ++ l1, lowerStr e ≠ lowerStr t) → t ∈ news)) ∧
    (∀ (disc relearn ex : List String),
        (∀ t' ∈ relearn, t' = "" ∨ ∃ t ∈ disc, t ≠ "" ∧ lowerStr t = lowerStr t') →
        mergeTerms (mergeTerms ex disc) relearn = mergeTerms ex disc) := by
  refine ⟨mergeTerms_shape, ?_⟩
  intro disc relearn ex hcase
  apply mergeTerms_covered
  intro t' ht'
  rcases hcase t' ht' with h0 | ⟨t, ht, hne, heq⟩
  · exact Or.inl h0
  · exact Or.inr (heq ▸ mergeTerms_covers disc ex t ht hne)

/-- Claim C6 (witness): learning "CRANK" once adds it, and re-learning it as
"crank" changes nothing. -/
theorem mergeTerms_spec_witness :
    mergeTerms ["Mill"] ["CRANK"] = ["Mill", "CRANK"] ∧
    mergeTerms (mergeTerms ["Mill"] ["CRANK"]) ["crank"] = mergeTerms ["Mill"] ["CRANK"] :=
  ⟨by decide, mergeTerms_spec.2 ["CRANK"] ["crank"] ["Mill"] (by decide)⟩

-- ─── Index merger lemmas (C3, C4, C5) ───────────────────────────────────────

theorem le_foldr_max (l : List ℕ) (k : ℕ) (h : k ∈ l) : k ≤ l.foldr max 0 := by
  induction l with
  | nil => cases h
  | cons a t ih =>
    rcases List.mem_cons.mp h with rfl | h'
    · exact le_max_left _ _
    · exact (ih h').trans (le_max_right _ _)

theorem lt_generateVideoId (vs : List (ℕ × VideoMeta)) (k : ℕ)
    (h : k ∈ vs.map Prod.fst) : k < generateVideoId vs := by
  have hne : ¬ ((vs.map Prod.fst).isEmpty = true) := by
    simp only [List.isEmpty_iff]
    exact List.ne_nil_of_mem h
  have h1 : k ≤ (vs.map Prod.fst).foldr max 0 := le_foldr_max _ _ h
  unfold generateVideoId
  rw [if_neg hne]
  omega

theorem lt_generateClipId (clips : List Clip) (k : ℕ)
    (h : k ∈ clips.map (fun c => c.id)) : k < generateClipId clips := by
  have hne : ¬ ((clips.map (fun c => c.id)).isEmpty = true) := by
    simp only [List.isEmpty_iff]
    exact List.ne_nil_of_mem h
  have h1 : k ≤ (clips.map (fun c => c.id)).foldr max 0 := le_foldr_max _ _ h
  unfold generateClipId
  rw [if_neg hne]
  omega

theorem generateVideoId_fresh (vs : List (ℕ × VideoMeta)) :
    generateVideoId vs ∉ vs.map Prod.fst :=
  fun h => lt_irrefl _ (lt_generateVideoId vs _ h)

theorem objSet_fresh (vs : List (ℕ × VideoMeta)) (k : ℕ) (m : VideoMeta)
    (h : k ∉ vs.map Prod.fst) : objSet vs k m = vs ++ [(k, m)] := by
  unfold objSet
  rw [if_neg ?_]
  intro hany
  obtain ⟨kv, hkv, hk⟩ := List.any_eq_true.mp hany
  exact h (List.mem_map.mpr ⟨kv, hkv, of_decide_eq_true hk⟩)

theorem mem_keys_objSet (vs : List (ℕ × VideoMeta)) (k : ℕ) (m : VideoMeta) (j : ℕ)
    (h : j ∈ vs.map Prod.fst) : j ∈ (objSet vs k m).map Prod.fst := by
  unfold objSet
  by_cases hc : vs.any (fun kv => decide (kv.1 = k))
  · rw [if_pos hc]
    obtain ⟨kv, hkv, hfst⟩ := List.mem_map.mp h
    refine List.mem_map.mpr ⟨if kv.1 = k then (k, m) else kv, List.mem_map.mpr ⟨kv, hkv, rfl⟩, ?_⟩
    by_cases he : kv.1 = k
    · rw [if_pos he]
      rw [← hfst, he]
    · rw [if_neg he]
      exact hfst
  · rw [if_neg hc, List.map_append]
    exact List.mem_append_left _ h

theorem key_mem_objSet (vs : List (ℕ × VideoMeta)) (k : ℕ) (m : VideoMeta) :
    k ∈ (objSet vs k m).map Prod.fst := by
  unfold objSet
  by_cases hc : vs.any (fun kv => decide (kv.1 = k))
  · rw [if_pos hc]
    obtain ⟨kv, hkv, hk⟩ := List.any_eq_true.mp hc
    refine List.mem_map.mpr ⟨(k, m), List.mem_map.mpr ⟨kv, hkv, ?_⟩, rfl⟩
    rw [if_pos (of_decide_eq_true hk)]
  · rw [if_neg hc, List.map_append]
    exact List.mem_append_right _ (by simp)

theorem buildClips_videoId (vid : ℕ) :
    ∀ (p : List (Segment × Bool)) (counter : ℕ), ∀ c ∈ buildClips vid counter p,
      c.videoId = vid := by
  intro p
  induction p with
  | nil => intro counter c hc; cases hc
  | cons sb rest ih =>
    intro counter c hc
    obtain ⟨s, ok⟩ := sb
    rcases List.mem_cons.mp hc with rfl | hc'
    · rfl
    · exact ih (counter + 1) c hc'

theorem buildClips_ids (vid : ℕ) :
    ∀ (p : List (Segment × Bool)) (counter : ℕ),
      (buildClips vid counter p).map (fun c => c.id) = List.range' counter p.length := by
  intro p
  induction p with
  | nil => intro counter; rfl
  | cons sb rest ih =>
    intro counter
    obtain ⟨s, ok⟩ := sb
    simp only [buildClips, List.map_cons, List.length_cons, List.range'_succ]
    exact congrArg _ (ih (counter + 1))

theorem buildClips_thumb (vid : ℕ) :
    ∀ (p : List (Segment × Bool)) (counter : ℕ), ∀ c ∈ buildClips vid counter p,
      ∀ t, c.thumbnail = some t → t = gifName c.id := by
  intro p
  induction p with
  | nil => intro counter c hc; cases hc
  | cons sb rest ih =>
    intro counter c hc t ht
    obtain ⟨s, ok⟩ := sb
    rcases List.mem_cons.mp hc with rfl | hc'
    · simp only [mkClip] at ht ⊢
      cases ok with
      | false => simp at ht
      | true => simp at ht; exact ht.symm
    · exact ih (counter + 1) c hc' t ht

theorem gifName_data (n : ℕ) :
    (gifName n).data =
      'c' :: 'l' :: 'i' :: 'p' :: '_' ::
        ((padStartZero 4 (toString n)).data ++ ".gif".data) := rfl

theorem gifName_ne_empty (n : ℕ) : gifName n ≠ "" := by
  intro h
  have hd : (gifName n).data = [] := by rw [h]
  rw [gifName_data] at hd
  exact absurd hd (by simp)

theorem invariant_step1 (idx : Index) (f : String) (h : Invariant idx) :
    Invariant (step1 idx f) := by
  intro c hc
  exact h c (List.mem_of_mem_filter hc)

theorem invariant_step2 (idx : Index) (f : String) (h : Invariant idx) :
    Invariant (step2 idx f) := by
  intro c hc
  have hm := List.mem_filter.mp hc
  have hcl : c ∈ idx.clips := hm.1
  have hnot : c.videoId ∉ staleIds idx f := of_decide_eq_true hm.2
  obtain ⟨kv, hkv, hfst⟩ := List.mem_map.mp (h c hcl)
  refine List.mem_map.mpr ⟨kv, List.mem_filter.mpr ⟨hkv, ?_⟩, hfst⟩
  rw [decide_eq_true_eq, hfst]
  exact hnot

theorem invariant_step3 (idx : Index) (f : String) (a : VideoAux) (h : Invariant idx) :
    Invariant (step3 idx f a) := by
  intro c hc
  exact mem_keys_objSet _ _ _ _ (invariant_step2 idx f h c hc)

theorem invariant_step4 (idx : Index) (f : String) (a : VideoAux)
    (payload : List (Segment × Bool)) (counter : ℕ) (h : Invariant idx) :
    Invariant (step4 idx f a payload counter) := by
  intro c hc
  rcases List.mem_append.mp hc with hold | hnew
  · exact invariant_step3 idx f a h c hold
  · rw [buildClips_videoId _ _ _ c hnew]
    exact key_mem_objSet _ _ _

/-- Claim C5: the merge preserves referential integrity at every intermediate
state — after stale-clip removal, after stale-video removal, after inserting
the new video entry, and after appending the new clips, every clip's videoId
is a key of the videos map. -/
theorem merge_preserves_invariant (idx : Index) (f : String) (a : VideoAux)
    (payload : List (Segment × Bool)) (counter : ℕ) (h : Invariant idx) :
    Invariant (step1 idx f) ∧ Invariant (step2 idx f) ∧
    Invariant (step3 idx f a) ∧ Invariant (step4 idx f a payload counter) :=
  ⟨invariant_step1 idx f h, invariant_step2 idx f h,
    invariant_step3 idx f a h, invariant_step4 idx f a payload counter h⟩

/-- Claim C5 (witness): the theorem applied to a one-video, one-clip index. -/
theorem merge_preserves_invariant_witness :
    Invariant c5idx ∧ Invariant (step4 c5idx "a.mp4" c5aux [(demoSegment, true)] 2) :=
  ⟨by unfold Invariant; decide,
    (merge_preserves_invariant c5idx "a.mp4" c5aux [(demoSegment, true)] 2
      (by unfold Invariant; decide)).2.2.2⟩

/-- Claim C4 (counterexample): a catalog that issued clip ids 1, 2, 3 reissues
id 3 after the clip carrying it is deleted through the deletion route — clip
ids are not "never reused" across the catalog's lifetime. -/
theorem clipId_reuse_cex :
    c4clips.map (fun c => c.id) = [1, 2, 3] ∧
    generateClipId (deleteClip c4clips 3) = 3 ∧
    3 ∈ c4clips.map (fun c => c.id) := by
  refine ⟨by decide, by decide, by decide⟩

/-- Claim C4 (amended): within one allocation pass clip ids are consecutive,
hence strictly increasing, and the allocator seed exceeds every id currently
in the catalog (so ids are unique while no deletion intervenes); reuse after
deletion is possible, as the counterexample shows. -/
theorem clipId_allocation_spec :
    (∀ (clips : List Clip), ∀ c ∈ clips, c.id < generateClipId clips) ∧
    (∀ (vid counter : ℕ) (payload : List (Segment × Bool)),
      (buildClips vid counter payload).map (fun c => c.id) =
        List.range' counter payload.length) := by
  constructor
  · intro clips c hc
    exact lt_generateClipId clips c.id (List.mem_map.mpr ⟨c, hc, rfl⟩)
  · intro vid counter payload
    exact buildClips_ids vid payload counter

/-- Claim C4 (witness): the freshness part applied to the concrete catalog. -/
theorem clipId_allocation_spec_witness :
    mkClip 1 1 demoSegment true ∈ c4clips ∧
    (mkClip 1 1 demoSegment true).id < generateClipId c4clips := by
  have hm : mkClip 1 1 demoSegment true ∈ c4clips := by
    simp only [c4clips, buildClips]
    exact List.mem_cons_self _ _
  exact ⟨hm, clipId_allocation_spec.1 c4clips _ hm⟩

-- ─── Re-analysis lemmas (C3) ────────────────────────────────────────────────

theorem step2_filename_ne (idx : Index) (f : String) :
    ∀ kv ∈ (step2 idx f).videos, ¬ kv.2.filename = f := by
  intro kv hkv hf
  have hm := List.mem_filter.mp hkv
  exact (of_decide_eq_true hm.2)
    (List.mem_map.mpr ⟨kv, List.mem_filter.mpr ⟨hm.1, by
      rw [decide_eq_true_eq]; exact hf⟩, rfl⟩)

theorem analyzeRun_videos (idx : Index) (f : String) (p : List (Segment × Bool))
    (a : VideoAux) :
    (analyzeRun idx f p a).index.videos =
      (step2 idx f).videos ++
        [(generateVideoId (step2 idx f).videos, mkMeta f a)] := by
  have hdef : (analyzeRun idx f p a).index.videos
      = objSet (step2 idx f).videos (generateVideoId (step2 idx f).videos) (mkMeta f a) := rfl
  rw [hdef]
  exact objSet_fresh _ _ _ (generateVideoId_fresh _)

theorem analyzeRun_clips (idx : Index) (f : String) (p : List (Segment × Bool))
    (a : VideoAux) :
    (analyzeRun idx f p a).index.clips =
      (step1 idx f).clips ++
        buildClips (generateVideoId (step2 idx f).videos) (generateClipId idx.clips) p := rfl

theorem staleIds_after (idx : Index) (f : String) (p : List (Segment × Bool))
    (a : VideoAux) :
    staleIds (analyzeRun idx f p a).index f = [generateVideoId (step2 idx f).videos] := by
  unfold staleIds
  rw [analyzeRun_videos, List.filter_append]
  have h1 : (step2 idx f).videos.filter (fun kv => decide (kv.2.filename = f)) = [] := by
    rw [List.filter_eq_nil_iff]
    intro kv hkv
    simp only [decide_eq_true_eq]
    exact step2_filename_ne idx f kv hkv
  rw [h1]
  simp [mkMeta]

theorem step1_clips_ne_newId (idx : Index) (f : String) (h : Invariant idx) :
    ∀ c ∈ (step1 idx f).clips, c.videoId ≠ generateVideoId (step2 idx f).videos := by
  intro c hc
  exact ne_of_lt (lt_generateVideoId _ _ (invariant_step2 idx f h c hc))

theorem step1_after (idx : Index) (f : String) (p : List (Segment × Bool))
    (a : VideoAux) (h : Invariant idx) :
    (step1 (analyzeRun idx f p a).index f).clips = (step1 idx f).clips := by
  show (analyzeRun idx f p a).index.clips.filter
      (fun c => decide (c.videoId ∉ staleIds (analyzeRun idx f p a).index f)) = _
  rw [staleIds_after idx f p a, analyzeRun_clips idx f p a, List.filter_append]
  have h1 : (step1 idx f).clips.filter
      (fun c => decide (c.videoId ∉ [generateVideoId (step2 idx f).videos]))
      = (step1 idx f).clips := by
    rw [List.filter_eq_self]
    intro c hc
    simp only [decide_eq_true_eq, List.mem_singleton]
    exact step1_clips_ne_newId idx f h c hc
  have h2 : (buildClips (generateVideoId (step2 idx f).videos) (generateClipId idx.clips) p).filter
      (fun c => decide (c.videoId ∉ [generateVideoId (step2 idx f).videos])) = [] := by
    rw [List.filter_eq_nil_iff]
    intro c hc
    simp only [decide_eq_true_eq, List.mem_singleton, not_not]
    exact buildClips_videoId _ _ _ c hc
  rw [h1, h2, List.append_nil]

theorem step2_after (idx : Index) (f : String) (p : List (Segment × Bool))
    (a : VideoAux) :
    (step2 (analyzeRun idx f p a).index f).videos = (step2 idx f).videos := by
  show (analyzeRun idx f p a).index.videos.filter
      (fun kv => decide (kv.1 ∉ staleIds (analyzeRun idx f p a).index f)) = _
  rw [staleIds_after idx f p a, analyzeRun_videos idx f p a, List.filter_append]
  have h1 : (step2 idx f).videos.filter
      (fun kv => decide (kv.1 ∉ [generateVideoId (step2 idx f).videos]))
      = (step2 idx f).videos := by
    rw [List.filter_eq_self]
    intro kv hkv
    simp only [decide_eq_true_eq, List.mem_singleton]
    exact ne_of_lt (lt_generateVideoId _ _ (List.mem_map.mpr ⟨kv, hkv, rfl⟩))
  have h2 : List.filter (fun kv => decide (kv.1 ∉ [generateVideoId (step2 idx f).videos]))
      [(generateVideoId (step2 idx f).videos, mkMeta f a)] = [] := by
    simp
  rw [h1, h2, List.append_nil]

/-- Claim C3: re-analysis is idempotent per filename — after running the merge
twice for the same filename, the index holds exactly one video entry for that
filename (the second run's), the clip list is the untouched foreign clips plus
exactly the second run's clips, the clips referencing the new video id are
exactly the second run's clips, and every preview file of the first run's
clips is unlinked by the second run's stale removal.  Requires the index
invariant (§3) on the starting index. -/
theorem reanalysis_idempotent (idx : Index) (f : String) (p1 p2 : List (Segment × Bool))
    (a1 a2 : VideoAux) (h : Invariant idx) :
    (rerun idx f p1 p2 a1 a2).index.videos.filter (fun kv => decide (kv.2.filename = f)) =
      [((rerun idx f p1 p2 a1 a2).newVideoId, mkMeta f a2)] ∧
    (rerun idx f p1 p2 a1 a2).index.clips =
      (step1 idx f).clips ++ (rerun idx f p1 p2 a1 a2).newClips ∧
    (rerun idx f p1 p2 a1 a2).index.clips.filter
        (fun c => decide (c.videoId = (rerun idx f p1 p2 a1 a2).newVideoId)) =
      (rerun idx f p1 p2 a1 a2).newClips ∧
    (∀ c ∈ (analyzeRun idx f p1 a1).newClips, ∀ t, c.thumbnail = some t →
      t ∈ (rerun idx f p1 p2 a1 a2).unlinked) := by
  have hv2 : (rerun idx f p1 p2 a1 a2).newVideoId
      = generateVideoId (step2 (analyzeRun idx f p1 a1).index f).videos := rfl
  have hstep2 := step2_after idx f p1 a1
  have c2 : (rerun idx f p1 p2 a1 a2).index.clips =
      (step1 idx f).clips ++ (rerun idx f p1 p2 a1 a2).newClips := by
    have hcl := analyzeRun_clips (analyzeRun idx f p1 a1).index f p2 a2
    rw [show (rerun idx f p1 p2 a1 a2).index.clips
        = (analyzeRun (analyzeRun idx f p1 a1).index f p2 a2).index.clips from rfl, hcl,
      step1_after idx f p1 a1 h]
    rfl
  refine ⟨?_, c2, ?_, ?_⟩
  · rw [show (rerun idx f p1 p2 a1 a2).index.videos
        = (analyzeRun (analyzeRun idx f p1 a1).index f p2 a2).index.videos from rfl,
      analyzeRun_videos (analyzeRun idx f p1 a1).index f p2 a2, List.filter_append]
    have hnil : ((step2 (analyzeRun idx f p1 a1).index f).videos).filter
        (fun kv => decide (kv.2.filename = f)) = [] := by
      rw [List.filter_eq_nil_iff]
      intro kv hkv
      simp only [decide_eq_true_eq]
      exact step2_filename_ne _ f kv hkv
    rw [hnil]
    simp [mkMeta, hv2]
  · rw [c2, List.filter_append]
    have hn0 : (step1 idx f).clips.filter
        (fun c => decide (c.videoId = (rerun idx f p1 p2 a1 a2).newVideoId)) = [] := by
      rw [List.filter_eq_nil_iff]
      intro c hc
      simp only [decide_eq_true_eq]
      rw [hv2, hstep2]
      exact step1_clips_ne_newId idx f h c hc
    have hself : ((rerun idx f p1 p2 a1 a2).newClips).filter
        (fun c => decide (c.videoId = (rerun idx f p1 p2 a1 a2).newVideoId))
        = (rerun idx f p1 p2 a1 a2).newClips := by
      rw [List.filter_eq_self]
      intro c hc
      simp only [decide_eq_true_eq]
      exact buildClips_videoId ((rerun idx f p1 p2 a1 a2).newVideoId) p2
        (generateClipId (analyzeRun idx f p1 a1).index.clips) c hc
    rw [hn0, hself, List.nil_append]
  · intro c hc t ht
    show t ∈ unlinkedThumbs (analyzeRun idx f p1 a1).index f
    unfold unlinkedThumbs
    apply List.mem_filterMap.mpr
    refine ⟨c, List.mem_filter.mpr ⟨?_, ?_⟩, ?_⟩
    · rw [analyzeRun_clips idx f p1 a1]
      exact List.mem_append_right _ hc
    · rw [staleIds_after idx f p1 a1]
      simp only [decide_eq_true_eq, List.mem_singleton]
      exact buildClips_videoId (generateVideoId (step2 idx f).videos) p1
        (generateClipId idx.clips) c hc
    · rw [ht]
      have hne : t ≠ "" := by
        rw [buildClips_thumb (generateVideoId (step2 idx f).videos) p1
          (generateClipId idx.clips) c hc t ht]
        exact gifName_ne_empty _
      simp [hne]

/-- Claim C3 (witness): the theorem applied to the empty index with two
one-segment runs on the same filename. -/
theorem reanalysis_idempotent_witness :
    Invariant (Index.mk "2.0" "" [] []) ∧
    (rerun (Index.mk "2.0" "" [] []) "a.mp4" [(demoSegment, true)] [(demoSegment, false)]
        c5aux c5aux).index.videos.filter (fun kv => decide (kv.2.filename = "a.mp4")) =
      [((rerun (Index.mk "2.0" "" [] []) "a.mp4" [(demoSegment, true)] [(demoSegment, false)]
          c5aux c5aux).newVideoId, mkMeta "a.mp4" c5aux)] :=
  ⟨by unfold Invariant; decide,
   (reanalysis_idempotent (Index.mk "2.0" "" [] []) "a.mp4" [(demoSegment, true)]
      [(demoSegment, false)] c5aux c5aux (by unfold Invariant; decide)).1⟩

-- ─── Upload retry lemmas (C7) ───────────────────────────────────────────────

theorem uploadRetry_succ (envs : ℕ → AttemptEnv) (mt : String) (rem attempt : ℕ) :
    uploadRetry envs mt (rem + 1) attempt =
      match attemptUpload mt (envs attempt) with
      | .ok h => (.ok h, [])
      | .error e =>
        if rem = 0 then
          (.error ("Upload failed after " ++ toString MAX_RETRIES ++ " attempts: " ++ e), [])
        else
          ((uploadRetry envs mt rem (attempt + 1)).1,
            5000 * attempt :: (uploadRetry envs mt rem (attempt + 1)).2) := rfl

/-- Claim C7: every failure mode of the three-step upload body — network
rejection, missing session URL, malformed (unparseable) upload response, and
provider-reported error object — surfaces as an attempt error; the whole body
is retried up to 3 times with sleeps of 5000·attempt between attempts; after
three failures the result names the last underlying cause; a success stops
the retrying immediately. -/
theorem uploadVideo_retry_spec :
    (∀ (mt : String) (env : AttemptEnv) (m : String),
        env.initStep = .error m → attemptUpload mt env = .error m) ∧
    (∀ (mt : String) (env : AttemptEnv) (r : InitResponse),
        env.initStep = .ok r → r.uploadUrl = none →
        attemptUpload mt env = .error ("Failed to initiate upload (HTTP "
          ++ toString r.statusCode ++ "): " ++ strSlice r.body 300)) ∧
    (∀ (mt : String) (env : AttemptEnv) (r : InitResponse) (u : UploadResponse) (x : String),
        env.initStep = .ok r → r.uploadUrl = some x → env.uploadStep = .ok u →
        u.parsed = none →
        attemptUpload mt env = .error ("Invalid response from upload (HTTP "
          ++ toString u.statusCode ++ "): " ++ strSlice u.body 300)) ∧
    (∀ (mt : String) (env : AttemptEnv) (r : InitResponse) (u : UploadResponse)
        (x : String) (fi : FileInfo) (er : ApiError),
        env.initStep = .ok r → r.uploadUrl = some x → env.uploadStep = .ok u →
        u.parsed = some fi → fi.error = some er →
        attemptUpload mt env = .error ("Gemini API error (" ++ er.code.getD "unknown"
          ++ "): " ++ er.message.getD "unknown error")) ∧
    (∀ (envs : ℕ → AttemptEnv) (mt : String) (e1 e2 e3 : String),
        attemptUpload mt (envs 1) = .error e1 → attemptUpload mt (envs 2) = .error e2 →
        attemptUpload mt (envs 3) = .error e3 →
        uploadVideo envs mt =
          (.error ("Upload failed after " ++ toString MAX_RETRIES ++ " attempts: " ++ e3),
            [5000 * 1, 5000 * 2])) ∧
    (∀ (envs : ℕ → AttemptEnv) (mt : String) (h : UploadHandle),
        attemptUpload mt (envs 1) = .ok h → uploadVideo envs mt = (.ok h, [])) ∧
    (∀ (envs : ℕ → AttemptEnv) (mt : String) (e1 : String) (h : UploadHandle),
        attemptUpload mt (envs 1) = .error e1 → attemptUpload mt (envs 2) = .ok h →
        uploadVideo envs mt = (.ok h, [5000 * 1])) := by
  refine ⟨?_, ?_, ?_, ?_, ?_, ?_, ?_⟩
  · intro mt env m h
    simp only [attemptUpload, h]
  · intro mt env r h1 h2
    simp only [attemptUpload, h1, h2]
  · intro mt env r u x h1 h2 h3 h4
    simp only [attemptUpload, h1, h2, h3, h4]
  · intro mt env r u x fi er h1 h2 h3 h4 h5
    simp only [attemptUpload, h1, h2, h3, h4, h5]
  · intro envs mt e1 e2 e3 h1 h2 h3
    have e3eq : uploadRetry envs mt 1 3 =
        (.error ("Upload failed after " ++ toString MAX_RETRIES ++ " attempts: " ++ e3), []) := by
      have hh : uploadRetry envs mt (0 + 1) 3 =
          (.error ("Upload failed after " ++ toString MAX_RETRIES ++ " attempts: " ++ e3), []) := by
        rw [uploadRetry_succ, h3]
        simp
      exact hh
    have e2eq : uploadRetry envs mt 2 2 =
        ((uploadRetry envs mt 1 3).1, 5000 * 2 :: (uploadRetry envs mt 1 3).2) := by
      have hh : uploadRetry envs mt (1 + 1) 2 =
          ((uploadRetry envs mt 1 (2 + 1)).1, 5000 * 2 :: (uploadRetry envs mt 1 (2 + 1)).2) := by
        rw [uploadRetry_succ, h2]
        simp
      exact hh
    have e1eq : uploadRetry envs mt 3 1 =
        ((uploadRetry envs mt 2 2).1, 5000 * 1 :: (uploadRetry envs mt 2 2).2) := by
      have hh : uploadRetry envs mt (2 + 1) 1 =
          ((uploadRetry envs mt 2 (1 + 1)).1, 5000 * 1 :: (uploadRetry envs mt 2 (1 + 1)).2) := by
        rw [uploadRetry_succ, h1]
        simp
      exact hh
    show uploadRetry envs mt 3 1 = _
    rw [e1eq, e2eq, e3eq]
  · intro envs mt h hok
    show uploadRetry envs mt 3 1 = (.ok h, [])
    have hh : uploadRetry envs mt (2 + 1) 1 = (.ok h, []) := by
      rw [uploadRetry_succ, hok]
    exact hh
  · intro envs mt e1 h h1 hok
    have e2eq : uploadRetry envs mt 2 2 = (.ok h, []) := by
      have hh : uploadRetry envs mt (1 + 1) 2 = (.ok h, []) := by
        rw [uploadRetry_succ, hok]
      exact hh
    have e1eq : uploadRetry envs mt 3 1 =
        ((uploadRetry envs mt 2 2).1, 5000 * 1 :: (uploadRetry envs mt 2 2).2) := by
      have hh : uploadRetry envs mt (2 + 1) 1 =
          ((uploadRetry envs mt 2 (1 + 1)).1, 5000 * 1 :: (uploadRetry envs mt 2 (1 + 1)).2) := by
        rw [uploadRetry_succ, h1]
        simp
      exact hh
    show uploadRetry envs mt 3 1 = (.ok h, [5000 * 1])
    rw [e1eq, e2eq]

/-- Claim C7 (witness): with every attempt failing on the first network
request with "boom", the upload fails after 3 attempts naming "boom" and
sleeps 5000·1 and 5000·2 between attempts. -/
theorem uploadVideo_retry_spec_witness :
    attemptUpload "video/mp4" c7env = .error "boom" ∧
    uploadVideo (fun _ => c7env) "video/mp4" =
      (.error ("Upload failed after " ++ toString MAX_RETRIES ++ " attempts: " ++ "boom"),
        [5000 * 1, 5000 * 2]) :=
  ⟨rfl, uploadVideo_retry_spec.2.2.2.2.1 (fun _ => c7env) "video/mp4" "boom" "boom" "boom"
    rfl rfl rfl⟩

-- ─── Verifier lemmas (C8, C9) ───────────────────────────────────────────────

theorem descs_set_getD (l : List VClip) (p : ℕ) (v m : Bool) :
    descs (l.set p (setFlags (l.getD p dummyVClip) v m)) = descs l := by
  induction l generalizing p with
  | nil => rfl
  | cons a t ih =>
    cases p with
    | zero => simp [descs, List.set, List.getD_cons_zero, setFlags]
    | succ n =>
      simp only [List.getD_cons_succ, List.set, descs, List.map_cons]
      have ht := ih n
      simp only [descs] at ht
      rw [ht]

theorem descs_applyVerdicts (refs : List ℕ) :
    ∀ (vs : List Verdict) (clips : List VClip),
      descs (applyVerdicts refs vs clips).1 = descs clips := by
  intro vs
  induction vs with
  | nil => intro clips; rfl
  | cons v rest ih =>
    intro clips
    by_cases h1 : v.index - 1 < 0 ∨ ((refs.length : ℤ) ≤ v.index - 1)
    · simp only [applyVerdicts, if_pos h1]
      exact ih clips
    · simp only [applyVerdicts, if_neg h1]
      rw [ih _]
      exact descs_set_getD clips (verdictPos refs v) v.isMatch (!v.isMatch)

theorem descs_processMismatch (env : RepickEnv) (st : List VClip × List String) (p : ℕ) :
    descs (processMismatch env st p).1 = descs st.1 := by
  unfold processMismatch
  split
  · rfl
  · split
    · rfl
    · rfl
    · rfl
    · split
      · exact descs_set_getD st.1 p true false
      · rfl

theorem descs_repickLoop (env : VerifyEnv) :
    ∀ (mms : List ℕ) (k : ℕ) (st : List VClip × List String),
      descs (repickLoop env mms k st).1 = descs st.1 := by
  intro mms
  induction mms with
  | nil => intro k st; rfl
  | cons p rest ih =>
    intro k st
    show descs (repickLoop env rest (k + 1) (processMismatch (env.repick k) st p)).1 = _
    rw [ih]
    exact descs_processMismatch _ _ _

/-- Claim C8: the verifier never alters a stored description — neither the
batch-check pass (applyVerdicts) nor the whole verify run (batch plus re-pick)
changes any clip's description; the clip list keeps its length and order. -/
theorem verify_preserves_descriptions :
    (∀ (refs : List ℕ) (vs : List Verdict) (clips : List VClip),
        descs (applyVerdicts refs vs clips).1 = descs clips) ∧
    (∀ (env : VerifyEnv) (hasExtract : Bool) (clips : List VClip),
        descs (verifyClips env hasExtract clips).1 = descs clips) := by
  refine ⟨descs_applyVerdicts, ?_⟩
  intro env hasExtract clips
  unfold verifyClips
  split
  · rfl
  · split
    · rfl
    · rfl
    · rfl
    · split
      · rw [descs_repickLoop]
        exact descs_applyVerdicts _ _ _
      · exact descs_applyVerdicts _ _ _

theorem not_mem_removeFS (fs ps : List String) (q : String) (h : q ∈ ps) :
    q ∉ removeFS fs ps := by
  intro hmem
  exact (of_decide_eq_true (List.mem_filter.mp hmem).2) h

/-- Claim C9 (counterexample): with the pick request failing on the network,
the per-clip catch is reached before the cleanup loop, so a candidate temp
file generated for the mismatched clip is still present after verify. -/
theorem repick_leak_cex :
    (c9envFail.repick 0).pick = .reqFail "boom" ∧
    "t_candidate_1.jpg" ∈ (verifyClips c9envFail true [c9clip]).2 := by
  exact ⟨rfl, by decide⟩

/-- Claim C9 (amended): when the pick request completes and its response
either lacks text or parses as JSON (valid, invalid or out-of-range choice
alike), every candidate temp file generated for the processed clip is deleted;
when the pick request fails or its response text is unparseable, the per-clip
exception handler skips the cleanup and the files remain (see the
counterexample). -/
theorem repick_cleanup (env : RepickEnv) (st : List VClip × List String) (p : ℕ)
    (hfail : ∀ m, env.pick ≠ .reqFail m) (hjson : env.pick ≠ .badJson) :
    ∀ q ∈ candPaths env st p, q ∉ (processMismatch env st p).2 := by
  intro q hq
  unfold processMismatch
  split
  · rename_i hemp
    rw [List.isEmpty_iff] at hemp
    unfold candPaths at hq
    rw [hemp] at hq
    cases hq
  · split
    · rename_i m hm
      exact absurd hm (hfail m)
    · exact not_mem_removeFS _ _ q hq
    · rename_i hm
      exact absurd hm hjson
    · split
      · exact not_mem_removeFS _ _ q hq
      · exact not_mem_removeFS _ _ q hq

/-- Claim C9 (witness): the amended theorem applied to a concrete clip whose
pick response has no text — the candidate file is gone afterwards. -/
theorem repick_cleanup_witness :
    "t_candidate_1.jpg" ∈ candPaths c9envOk ([c9clip], ["t.jpg"]) 0 ∧
    "t_candidate_1.jpg" ∉ (processMismatch c9envOk ([c9clip], ["t.jpg"]) 0).2 :=
  ⟨by decide,
    repick_cleanup c9envOk ([c9clip], ["t.jpg"]) 0
      (fun m h => nomatch h) (fun h => nomatch h) "t_candidate_1.jpg" (by decide)⟩
